import Mathlib

/-!
Verification of the `water` WebAssembly-text-format translator.

This file gives a shallow embedding of the program's data model
(`src/ast.rs`), opcode resolution tables (`src/opcode.rs`), the LEB128
variable-length integer codec (`src/leb128.rs`), the binary emitter
(`src/emitter.rs`, `src/emitter/constant.rs`,
`src/emitter/numerical_value.rs`), and the nom-based grammar parsers
(`src/parser/utils.rs`, `src/parser/instruction.rs`,
`src/parser/function.rs`), and proves properties about them.

Modelling conventions:
  * Rust machine integers are embedded as `Int` (for `i32`/`i64`) or
    `Nat` (for `u64` and bytes), with value ranges stated as explicit
    hypotheses where they matter.  Bytes are `Nat`s below 256.
  * Rust `f32`/`f64` payloads are embedded by their IEEE-754 bit
    patterns (a `Nat`), because the program never computes with floats:
    it only serializes their bit patterns (`to_le_bytes`).  A separate
    interpretation function maps a bit pattern to the rational number
    it represents, so that concrete bit patterns can be tied to the
    float literals named by the specification.
  * Rust panics (`unreachable!`, `todo!`) are embedded as `Option`
    results: `none` models an abort.
  * The byte sink (`Emitter<W: Write>`) is embedded as a pure function
    returning the list of bytes written; sink I/O errors are out of
    scope of the claims treated here.
-/

/-! ## AST data model, from `src/ast.rs` -/

/-- The four built-in WebAssembly numerical types (`NumericalType`). -/
inductive NumericalType
  | Int32
  | Int64
  | Float32
  | Float64
deriving DecidableEq, Repr

/-- `NumericalValue`: a numerical type together with the value it
carries.  Integer payloads are embedded as `Int`; float payloads by
their IEEE-754 bit pattern. -/
inductive NumericalValue
  | Int32 (value : Int)
  | Int64 (value : Int)
  | Float32 (bits : Nat)
  | Float64 (bits : Nat)
deriving DecidableEq, Repr

/-- `Type` from `src/ast.rs` (named `AstType` here because `Type` is a
Lean keyword): currently only wraps a numerical type. -/
inductive AstType
  | Numerical (t : NumericalType)
deriving DecidableEq, Repr

/-- Identifiers (the `SmallString` interning utility is an external
collaborator; it is modelled as the text it holds). -/
abbrev SmallString := List Char

/-- `Index`: a reference to a definition, symbolic or numeric. -/
inductive Index
  | Identifier (name : SmallString)
  | Numerical (i : Int)
deriving DecidableEq, Repr

/-- `ScopeKind`: whether a variable instruction is `local.` or `global.`. -/
inductive ScopeKind
  | Global
  | Local
deriving DecidableEq, Repr

/-- `VariableInstruction`: get/set/tee. -/
inductive VariableInstruction
  | Get
  | Set
  | Tee
deriving DecidableEq, Repr

/-- `VariableOperation`: scope, instruction kind and target index. -/
structure VariableOperation where
  scope : ScopeKind
  instruction : VariableInstruction
  index : Index
deriving DecidableEq, Repr

/-- `Constant`: a numerical constant pushed to the stack. -/
structure Constant where
  value : NumericalValue
deriving DecidableEq, Repr

/-- `ArithmeticInstruction` from `src/ast.rs`. -/
inductive ArithmeticInstruction
  | Addition
  | Subtraction
  | Multiplication
  | FloatDivision
  | SignedDivision
  | UnsignedDisivion
  | SignedRemainder
  | UnsignedRemainder
deriving DecidableEq, Repr

/-- `ArithmeticOperation`: a numerical type with an arithmetic kind. -/
structure ArithmeticOperation where
  type_ : NumericalType
  instr : ArithmeticInstruction
deriving DecidableEq, Repr

/-- `ComparisonInstruction` from `src/ast.rs`. -/
inductive ComparisonInstruction
  | Equal
  | NotEqual
  | GreaterThan
  | LessThan
  | GreaterOrEqual
  | LessOrEqual
deriving DecidableEq, Repr

/-- `ComparisonOperation`: a numerical type with a comparison kind. -/
structure ComparisonOperation where
  type_ : NumericalType
  instr : ComparisonInstruction
deriving DecidableEq, Repr

/-- `Unreachable`: zero-sized marker for the `unreachable` instruction. -/
inductive Unreachable
  | mk
deriving DecidableEq, Repr

/-- `Opcode`: the tagged union of instruction kinds. -/
inductive Opcode
  | Call (index : Index)
  | VariableInstruction (op : VariableOperation)
  | Constant (c : Constant)
  | Arithmetic (op : ArithmeticOperation)
  | Comparison (op : ComparisonOperation)
  | Unreachable (u : Unreachable)
deriving DecidableEq, Repr

/-- `Instruction`: an opcode plus its ordered list of "inlined"
operand instructions. -/
inductive Instruction
  | mk (opcode : Opcode) (arguments : List Instruction)

/-- The opcode of an instruction. -/
def Instruction.opcode : Instruction → Opcode
  | .mk op _ => op

/-- The inlined arguments of an instruction. -/
def Instruction.arguments : Instruction → List Instruction
  | .mk _ args => args

/-- `Parameter`: optional identifier plus a type. -/
structure Parameter where
  identifier : Option SmallString
  type_ : AstType
deriving DecidableEq, Repr

/-- `Local`: optional identifier plus a type. -/
structure Local where
  identifier : Option SmallString
  type_ : AstType
deriving DecidableEq, Repr

/-- `Function`: optional identifier, export names, parameters, locals. -/
structure Function where
  identifier : Option SmallString
  exports : List SmallString
  parameters : List Parameter
  local_variables : List Local
deriving DecidableEq, Repr

/-- `Module` from `src/ast.rs` (named `WatModule` here because Mathlib
already declares `Module`): a parse-validated unit with no internal
structure yet. -/
structure WatModule where
deriving DecidableEq, Repr

/-- `Program`: an ordered sequence of modules. -/
structure Program where
  modules : List WatModule

/-! ## Opcode resolution, from `src/opcode.rs`

Each `to_opcode` implementation returns the single opcode byte for a
node.  Arms of the Rust `match` that panic (`unreachable!` for invalid
combinations, `todo!` for unimplemented ones) are modelled as `none`:
both macros abort the program rather than returning a byte. -/

/-- `impl ToOpcode for Unreachable` (src/opcode.rs line 12). -/
def Unreachable.to_opcode (_ : Unreachable) : Nat := 0x00

/-- `impl ToOpcode for NumericalValue` (src/opcode.rs line 18). -/
def NumericalValue.to_opcode : NumericalValue → Nat
  | .Int32 _ => 0x41
  | .Int64 _ => 0x42
  | .Float32 _ => 0x43
  | .Float64 _ => 0x44

/-- `impl ToOpcode for ArithmeticOperation` (src/opcode.rs line 29).
The three `unreachable!` arms (float division for integers,
signed/unsigned division for floats, remainder for floats) abort. -/
def ArithmeticOperation.to_opcode (op : ArithmeticOperation) : Option Nat :=
  match op.type_, op.instr with
  | .Int32, .Addition => some 0x6a
  | .Int32, .Subtraction => some 0x6b
  | .Int32, .Multiplication => some 0x6c
  | .Int32, .SignedDivision => some 0x6d
  | .Int32, .UnsignedDisivion => some 0x6e
  | .Int32, .SignedRemainder => some 0x6f
  | .Int32, .UnsignedRemainder => some 0x70
  | .Int64, .Addition => some 0x7c
  | .Int64, .Subtraction => some 0x7d
  | .Int64, .Multiplication => some 0x7e
  | .Int64, .SignedDivision => some 0x7f
  | .Int64, .UnsignedDisivion => some 0x80
  | .Int64, .SignedRemainder => some 0x81
  | .Int64, .UnsignedRemainder => some 0x82
  | .Int32, .FloatDivision => none
  | .Int64, .FloatDivision => none
  | .Float32, .Addition => some 0x92
  | .Float32, .Subtraction => some 0x93
  | .Float32, .Multiplication => some 0x94
  | .Float32, .FloatDivision => some 0x95
  | .Float64, .Addition => some 0xa0
  | .Float64, .Subtraction => some 0xa1
  | .Float64, .Multiplication => some 0xa2
  | .Float64, .FloatDivision => some 0xa3
  | .Float32, .UnsignedDisivion | .Float32, .SignedDivision => none
  | .Float64, .UnsignedDisivion | .Float64, .SignedDivision => none
  | .Float32, .SignedRemainder | .Float32, .UnsignedRemainder => none
  | .Float64, .SignedRemainder | .Float64, .UnsignedRemainder => none

/-- `impl ToOpcode for ComparisonOperation` (src/opcode.rs line 142).
Only the `Equal` and `NotEqual` arms return a byte; all sixteen
ordering arms (`GreaterThan`, `LessThan`, `GreaterOrEqual`,
`LessOrEqual`, for every type) are `todo!()` in the source and abort. -/
def ComparisonOperation.to_opcode (op : ComparisonOperation) : Option Nat :=
  match op.type_, op.instr with
  | .Int32, .Equal => some 0x45
  | .Int32, .NotEqual => some 0x47
  | .Int32, .GreaterThan => none
  | .Int32, .LessThan => none
  | .Int32, .GreaterOrEqual => none
  | .Int32, .LessOrEqual => none
  | .Int64, .Equal => some 0x51
  | .Int64, .NotEqual => some 0x52
  | .Int64, .GreaterThan => none
  | .Int64, .LessThan => none
  | .Int64, .GreaterOrEqual => none
  | .Int64, .LessOrEqual => none
  | .Float32, .Equal => some 0x5b
  | .Float32, .NotEqual => some 0x5c
  | .Float32, .GreaterThan => none
  | .Float32, .LessThan => none
  | .Float32, .GreaterOrEqual => none
  | .Float32, .LessOrEqual => none
  | .Float64, .Equal => some 0x61
  | .Float64, .NotEqual => some 0x62
  | .Float64, .GreaterThan => none
  | .Float64, .LessThan => none
  | .Float64, .GreaterOrEqual => none
  | .Float64, .LessOrEqual => none

/-- `impl ToOpcode for VariableOperation` (src/opcode.rs line 265).
`global.tee` does not exist and aborts (`unreachable!`). -/
def VariableOperation.to_opcode (op : VariableOperation) : Option Nat :=
  match op.scope, op.instruction with
  | .Local, .Get => some 0x20
  | .Local, .Set => some 0x21
  | .Local, .Tee => some 0x22
  | .Global, .Get => some 0x23
  | .Global, .Set => some 0x24
  | .Global, .Tee => none

/-- `impl ToOpcode for Opcode` (src/opcode.rs line 246). -/
def Opcode.to_opcode : Opcode → Option Nat
  | .Unreachable u => some u.to_opcode
  | .Call _ => some 0x10
  | .VariableInstruction op => op.to_opcode
  | .Constant c => some c.value.to_opcode
  | .Arithmetic op => op.to_opcode
  | .Comparison op => op.to_opcode

/-! ## LEB128 variable-length integer codec, from `src/leb128.rs`

`Emittable<SignedLeb128>::emit_element` loops on an `i64` `value`:
each iteration backs up `value`, arithmetically shifts it right by 6,
is done when the shifted value is `0` or `-1`, and emits the low byte
of the backup with the continuation bit (bit 7) cleared (done) or set
(not done); when not done it shifts right once more (7 bits total per
emitted byte).

On `Int`, Rust's arithmetic right shift `>> k` of an `i64` is floor
division by `2^k`, which is Lean's `/` (`Int.ediv`, floor for a
positive divisor); the low byte of the two's-complement representation
is `% 256` (`Int.emod`, in `[0, 256)` for a positive modulus).  The
emitted byte `(bkp & !0x80) as u8` is the low byte with bit 7 cleared,
i.e. `value % 128`; `(bkp | 0x80) as u8` is `value % 128 + 128`. -/

/-- The byte sequence written by `Emittable<SignedLeb128>::emit_element`
(src/leb128.rs lines 24-57). -/
def sleb_encode (value : Int) : List Nat :=
  let shifted := value / 64
  if shifted = 0 ∨ shifted = -1 then
    [(value % 128).toNat]
  else
    ((value % 128).toNat + 128) :: sleb_encode (shifted / 2)
termination_by value.natAbs
decreasing_by
  rename_i h
  simp only [not_or] at h
  omega

/-- The byte sequence written by the loop of
`Emittable<UnsignedLeb128>::emit_element` (src/leb128.rs lines
119-130): emit the low 7 bits (`low_bits`), shift right by 7, set the
continuation bit when the shifted value is nonzero. -/
def uleb_loop (value : Nat) : List Nat :=
  if value = 0 then []
  else
    (if value / 128 = 0 then value % 128 else value % 128 + 128) ::
      uleb_loop (value / 128)
termination_by value
decreasing_by omega

/-- The byte sequence written by `Emittable<UnsignedLeb128>::emit_element`
(src/leb128.rs lines 105-134): zero is special-cased to a single zero
byte. -/
def uleb_encode (value : Nat) : List Nat :=
  if value = 0 then [0] else uleb_loop value

/-- The standard two's-complement (signed) LEB128 decoder: bytes are
little-endian 7-bit groups; the final group is sign-extended from its
bit 6.  This is the reference definition the claims decode with; it is
not part of the Rust source. -/
def sleb_decode : List Nat → Int
  | [] => 0
  | b :: bs =>
    if bs.isEmpty then
      if b % 128 < 64 then ((b % 128 : Nat) : Int)
      else ((b % 128 : Nat) : Int) - 128
    else ((b % 128 : Nat) : Int) + 128 * sleb_decode bs

/-- The standard unsigned LEB128 decoder. -/
def uleb_decode : List Nat → Nat
  | [] => 0
  | b :: bs => b % 128 + 128 * uleb_decode bs

/-- Structural canonicality of an LEB128 byte sequence: nonempty, every
non-final byte has the continuation bit set (and is a byte), the final
byte does not. -/
def canonical_bytes : List Nat → Bool
  | [] => false
  | [b] => b < 128
  | b :: bs => 128 ≤ b && b < 256 && canonical_bytes bs

/-- Minimality of a signed LEB128 byte sequence: no redundant final
byte.  A final `0x00` after a byte whose bit 6 is clear, or a final
`0x7F` after a byte whose bit 6 is set, could be dropped. -/
def sleb_minimal : List Nat → Bool
  | [] => true
  | [_] => true
  | b :: bs =>
    sleb_minimal bs &&
      !(bs == [0] && b % 128 < 64) &&
      !(bs == [127] && 64 ≤ b % 128)

/-- The signed encoder never produces the empty sequence. -/
theorem sleb_encode_ne_nil (value : Int) : sleb_encode value ≠ [] := by
  rw [sleb_encode]
  split <;> simp

/-- The signed encoder stops immediately exactly on values in
`[-64, 64)`, producing the single byte `value % 128`. -/
theorem sleb_encode_small (value : Int) (h : -64 ≤ value ∧ value < 64) :
    sleb_encode value = [(value % 128).toNat] := by
  rw [sleb_encode]
  have : value / 64 = 0 ∨ value / 64 = -1 := by omega
  simp [this]

/-- Unfolding of the signed encoder on values outside `[-64, 64)`. -/
theorem sleb_encode_large (value : Int)
    (h : value < -64 ∨ 64 ≤ value) :
    sleb_encode value =
      ((value % 128).toNat + 128) :: sleb_encode (value / 128) := by
  rw [sleb_encode]
  have h1 : ¬(value / 64 = 0 ∨ value / 64 = -1) := by omega
  have h2 : value / 64 / 2 = value / 128 := by omega
  simp [h1, h2]

/-- Decoding inverts the signed encoder, for every integer. -/
theorem sleb_decode_encode (value : Int) :
    sleb_decode (sleb_encode value) = value := by
  induction value using sleb_encode.induct with
  | case1 v shifted hdone =>
    rw [sleb_encode_small v (by omega)]
    simp only [sleb_decode, List.isEmpty_nil, if_true]
    omega
  | case2 v shifted hdone ih =>
    simp only [not_or] at hdone
    have hv : v < -64 ∨ 64 ≤ v := by omega
    have h2 : v / 64 / 2 = v / 128 := by omega
    rw [sleb_encode_large v hv]
    rw [h2] at ih
    simp only [sleb_decode, List.isEmpty_eq_true]
    rw [if_neg (sleb_encode_ne_nil _), ih]
    omega

/-- If the signed encoder produces a single byte, the input was in
`[-64, 64)` and the byte is its low 7 bits. -/
theorem sleb_encode_eq_single (value : Int) (x : Nat)
    (h : sleb_encode value = [x]) :
    -64 ≤ value ∧ value < 64 ∧ x = (value % 128).toNat := by
  by_cases hr : -64 ≤ value ∧ value < 64
  · rw [sleb_encode_small value hr] at h
    exact ⟨hr.1, hr.2, by simpa using h.symm⟩
  · rw [sleb_encode_large value (by omega)] at h
    simp only [List.cons.injEq] at h
    exact absurd h.2 (sleb_encode_ne_nil _)

/-- The signed encoder's output is structurally canonical: every
non-final byte has the continuation bit set, the final byte does not. -/
theorem sleb_encode_canonical (value : Int) :
    canonical_bytes (sleb_encode value) = true := by
  induction value using sleb_encode.induct with
  | case1 v shifted hdone =>
    rw [sleb_encode_small v (by omega)]
    simp only [canonical_bytes, decide_eq_true_eq]
    omega
  | case2 v shifted hdone ih =>
    simp only [not_or] at hdone
    have h2 : v / 64 / 2 = v / 128 := by omega
    rw [sleb_encode_large v (by omega)]
    rw [h2] at ih
    obtain ⟨c, cs, hcons⟩ := List.exists_cons_of_ne_nil (sleb_encode_ne_nil (v / 128))
    rw [hcons]
    rw [hcons] at ih
    simp only [canonical_bytes, Bool.and_eq_true, decide_eq_true_eq] at ih ⊢
    refine ⟨⟨by omega, by omega⟩, ih⟩

/-- The signed encoder's output is minimal: it never ends in a
redundant `0x00` or `0x7F` byte. -/
theorem sleb_encode_minimal (value : Int) :
    sleb_minimal (sleb_encode value) = true := by
  induction value using sleb_encode.induct with
  | case1 v shifted hdone =>
    rw [sleb_encode_small v (by omega)]
    rfl
  | case2 v shifted hdone ih =>
    simp only [not_or] at hdone
    have h2 : v / 64 / 2 = v / 128 := by omega
    rw [sleb_encode_large v (by omega)]
    rw [h2] at ih
    obtain ⟨c, cs, hcons⟩ := List.exists_cons_of_ne_nil (sleb_encode_ne_nil (v / 128))
    -- a final `0x00` would mean the remaining value was zero, which
    -- forces `64 ≤ v % 128`; a final `0x7F` would mean it was `-1`,
    -- which forces `v % 128 < 64`
    have hguard0 : ¬(c :: cs = [0] ∧ ((v % 128).toNat + 128) % 128 < 64) := by
      rintro ⟨h0, hlt⟩
      have hs := sleb_encode_eq_single (v / 128) 0 (hcons.trans h0)
      omega
    have hguard7 : ¬(c :: cs = [127] ∧ 64 ≤ ((v % 128).toNat + 128) % 128) := by
      rintro ⟨h7, hge⟩
      have hs := sleb_encode_eq_single (v / 128) 127 (hcons.trans h7)
      omega
    rw [hcons]
    rw [hcons] at ih
    simp only [sleb_minimal, ih, Bool.true_and, Bool.and_eq_true,
      Bool.not_eq_true', Bool.and_eq_false_iff, beq_eq_false_iff_ne, ne_eq,
      decide_eq_false_iff_not, not_lt, not_le]
    constructor
    · rcases not_and_or.mp hguard0 with h | h
      · exact Or.inl h
      · exact Or.inr (by omega)
    · rcases not_and_or.mp hguard7 with h | h
      · exact Or.inl h
      · exact Or.inr (by omega)

/-- One-step unfolding of the signed decoder on a final byte. -/
theorem sleb_decode_single (b : Nat) :
    sleb_decode [b] =
      if b % 128 < 64 then ((b % 128 : Nat) : Int)
      else ((b % 128 : Nat) : Int) - 128 := rfl

/-- One-step unfolding of the signed decoder on a non-final byte. -/
theorem sleb_decode_cons (b c : Nat) (cs : List Nat) :
    sleb_decode (b :: c :: cs) =
      ((b % 128 : Nat) : Int) + 128 * sleb_decode (c :: cs) := rfl

/-- Uniqueness: a structurally canonical, minimal byte sequence that
decodes to `v` is exactly the sequence the signed encoder produces
for `v`. -/
theorem sleb_unique (bs : List Nat) (v : Int)
    (hc : canonical_bytes bs = true) (hm : sleb_minimal bs = true)
    (hd : sleb_decode bs = v) : bs = sleb_encode v := by
  induction bs generalizing v with
  | nil => simp [canonical_bytes] at hc
  | cons b tl ih =>
    rcases tl with _ | ⟨c, cs⟩
    · simp only [canonical_bytes, decide_eq_true_eq] at hc
      rw [sleb_decode_single] at hd
      rw [sleb_encode_small v (by split at hd <;> omega)]
      have hb : b % 128 = b := Nat.mod_eq_of_lt hc
      split at hd <;> simp only [List.cons.injEq, and_true] <;> omega
    · simp only [canonical_bytes, Bool.and_eq_true, decide_eq_true_eq] at hc
      obtain ⟨⟨hb1, hb2⟩, hc'⟩ := hc
      simp only [sleb_minimal, Bool.and_eq_true, Bool.not_eq_true',
        Bool.and_eq_false_iff, beq_eq_false_iff_ne, ne_eq,
        decide_eq_false_iff_not, not_lt, not_le] at hm
      obtain ⟨⟨hm', hg0⟩, hg7⟩ := hm
      rw [sleb_decode_cons] at hd
      set w := sleb_decode (c :: cs) with hw
      have htail : c :: cs = sleb_encode w := ih _ hc' hm' rfl
      -- `v` cannot be in the single-byte range `[-64, 64)`: that would
      -- make the tail a redundant `[0]` or `[127]`, excluded by
      -- minimality
      have hv : v < -64 ∨ 64 ≤ v := by
        by_contra hcon
        push_neg at hcon
        by_cases hvpos : 0 ≤ v
        · have hw0 : w = 0 := by omega
          have h00 : c :: cs = [0] := by
            rw [hw0] at htail
            simpa [sleb_encode_small 0 (by norm_num)] using htail
          rcases hg0 with h | h
          · exact h h00
          · omega
        · have hw1 : w = -1 := by omega
          have h77 : c :: cs = [127] := by
            rw [hw1] at htail
            simpa [sleb_encode_small (-1) (by norm_num)] using htail
          rcases hg7 with h | h
          · exact h h77
          · omega
      rw [sleb_encode_large v hv]
      have hhead : b = (v % 128).toNat + 128 := by omega
      have htl : v / 128 = w := by omega
      rw [htl, ← htail, ← hhead]

/-- Decoding inverts the unsigned encoder's loop, for every natural
number. -/
theorem uleb_decode_loop (value : Nat) :
    uleb_decode (uleb_loop value) = value := by
  induction value using uleb_loop.induct with
  | case1 => simp [uleb_loop, uleb_decode]
  | case2 v hv ih =>
    rw [uleb_loop]
    simp only [if_neg hv, uleb_decode, ih]
    split <;> omega

/-- Decoding inverts the unsigned encoder, for every natural number. -/
theorem uleb_decode_encode (value : Nat) :
    uleb_decode (uleb_encode value) = value := by
  rw [uleb_encode]
  split
  · simp [uleb_decode]; omega
  · exact uleb_decode_loop value

/-! ## Binary emitter, from `src/emitter.rs`, `src/emitter/constant.rs`
and `src/emitter/numerical_value.rs`

The `Emitter<W: Write>` byte sink is embedded as a pure function
returning the list of bytes written. -/

/-- The `k`-byte little-endian representation of `n`, as written by
Rust's `to_le_bytes`. -/
def le_bytes : Nat → Nat → List Nat
  | 0, _ => []
  | k + 1, n => n % 256 :: le_bytes k (n / 256)

/-- The rational number represented by an IEEE-754 binary32 bit
pattern (meaningful for finite values, i.e. exponent field below
`0xFF`).  This interpretation function ties concrete bit patterns to
the decimal literals named by the specification; it is not part of the
Rust source. -/
def f32_to_rat (bits : Nat) : ℚ :=
  let sign : Nat := bits / 2 ^ 31 % 2
  let exp : Nat := bits / 2 ^ 23 % 2 ^ 8
  let frac : Nat := bits % 2 ^ 23
  let mag : ℚ :=
    if exp = 0 then (frac : ℚ) * 2 / 2 ^ 150
    else ((2 ^ 23 + frac : Nat) : ℚ) * 2 ^ exp / 2 ^ 150
  if sign = 1 then -mag else mag

/-- The rational number represented by an IEEE-754 binary64 bit
pattern (meaningful for finite values). -/
def f64_to_rat (bits : Nat) : ℚ :=
  let sign : Nat := bits / 2 ^ 63 % 2
  let exp : Nat := bits / 2 ^ 52 % 2 ^ 11
  let frac : Nat := bits % 2 ^ 52
  let mag : ℚ :=
    if exp = 0 then (frac : ℚ) * 2 / 2 ^ 1075
    else ((2 ^ 52 + frac : Nat) : ℚ) * 2 ^ exp / 2 ^ 1075
  if sign = 1 then -mag else mag

/-- Rust's `int32 as i64` cast: sign extension of the 32-bit
two's-complement representation, which preserves the numeric value of
every `i32`.  On the embedded `Int` payload it is the identity. -/
def i32_as_i64 (value : Int) : Int := value

/-- `Emittable2<NumericalValue>::emit_element`
(src/emitter/numerical_value.rs lines 30-55): integers through the
signed LEB128 encoder (an `i32` is first cast to `i64`), floats as
their little-endian bit pattern (4 or 8 bytes, `to_le_bytes`). -/
def NumericalValue.emit_element : NumericalValue → List Nat
  | .Int32 value => sleb_encode (i32_as_i64 value)
  | .Int64 value => sleb_encode value
  | .Float32 bits => le_bytes 4 bits
  | .Float64 bits => le_bytes 8 bits

/-- `Emittable<Constant>::emit_element` (src/emitter/constant.rs lines
6-20): the `const` opcode byte for the value, then the literal. -/
def Constant.emit_element (c : Constant) : List Nat :=
  c.value.to_opcode :: c.value.emit_element

/-- `const MAGIC: &[u8] = b"\0asm"` (src/emitter.rs line 13). -/
def MAGIC : List Nat := [0x00, 0x61, 0x73, 0x6d]

/-- `const VERSION: &[u8] = b"1000"` (src/emitter.rs line 14): the
four ASCII bytes of the string `1000`. -/
def VERSION : List Nat := [0x31, 0x30, 0x30, 0x30]

/-- `Emitter::emit_program` (src/emitter.rs lines 51-59): emits the
magic constant, then the version tag, and returns; the program
argument is unused. -/
def emit_program (_program : Program) : List Nat := MAGIC ++ VERSION

/-! ## Grammar parser

The source parsers are nom combinators over `&str` with
`VerboseError` context.  They are embedded as functions from the
remaining input (`List Char`) to either the rest of the input plus a
value, or an error.  nom distinguishes recoverable errors
(`Err::Error`, alternation backtracks) from fatal failures
(`Err::Failure`, produced by `cut`, which abort the enclosing
alternation); error context labels carry no semantic weight and are
dropped. -/

/-- Parse failure kinds: nom's recoverable `Error` versus the fatal
`Failure` produced by `cut`. -/
inductive PError
  | recoverable
  | fatal
deriving DecidableEq, Repr

/-- Result of a parsing rule: remaining input plus a value, or an
error. -/
abbrev PResult (α : Type) := Except PError (List Char × α)

/-- Helper for nom `tag`: strip a literal prefix. -/
def strip_tag : List Char → List Char → Option (List Char)
  | [], input => some input
  | _ :: _, [] => none
  | c :: cs, d :: ds => if c == d then strip_tag cs ds else none

/-- nom `tag`: match a literal string prefix. -/
def ptag (s : String) (input : List Char) : PResult (List Char) :=
  match strip_tag s.toList input with
  | some rest => .ok (rest, s.toList)
  | none => .error .recoverable

/-- nom `char`: match a single character. -/
def pchar (c : Char) (input : List Char) : PResult Char :=
  match input with
  | d :: rest => if d == c then .ok (rest, c) else .error .recoverable
  | [] => .error .recoverable

/-- The characters accepted by nom `multispace0`. -/
def is_multispace (c : Char) : Bool :=
  c == ' ' || c == '\t' || c == '\r' || c == '\n'

/-- nom `multispace0`: consume zero or more spaces, tabs, carriage
returns and line feeds. -/
def multispace0 (input : List Char) : PResult Unit :=
  .ok (input.dropWhile is_multispace, ())

/-- nom `value`: run a rule, replace its output by a constant. -/
def pvalue {β : Type} (v : α) (p : List Char → PResult β)
    (input : List Char) : PResult α :=
  match p input with
  | .ok (rest, _) => .ok (rest, v)
  | .error e => .error e

/-- nom `Parser::map`. -/
def pmap (p : List Char → PResult α) (f : α → β)
    (input : List Char) : PResult β :=
  match p input with
  | .ok (rest, a) => .ok (rest, f a)
  | .error e => .error e

/-- nom `alt` of two rules: a recoverable failure of the first tries
the second; a fatal failure aborts. -/
def palt2 (p q : List Char → PResult α) (input : List Char) : PResult α :=
  match p input with
  | .ok x => .ok x
  | .error .fatal => .error .fatal
  | .error .recoverable => q input

/-- nom `alt` of three rules. -/
def palt3 (p q r : List Char → PResult α) (input : List Char) : PResult α :=
  palt2 p (palt2 q r) input

/-- nom `alt` of four rules. -/
def palt4 (p q r s : List Char → PResult α) (input : List Char) : PResult α :=
  palt2 p (palt3 q r s) input

/-- nom `opt`: a recoverable failure yields `none` without consuming;
a fatal failure still propagates. -/
def popt (p : List Char → PResult α) (input : List Char) : PResult (Option α) :=
  match p input with
  | .ok (rest, a) => .ok (rest, some a)
  | .error .fatal => .error .fatal
  | .error .recoverable => .ok (input, none)

/-- nom `preceded`: run both rules, keep the second value. -/
def preceded (p : List Char → PResult α) (q : List Char → PResult β)
    (input : List Char) : PResult β :=
  match p input with
  | .ok (rest, _) => q rest
  | .error e => .error e

/-- nom `cut`: escalate recoverable failure to fatal. -/
def pcut (p : List Char → PResult α) (input : List Char) : PResult α :=
  match p input with
  | .ok x => .ok x
  | .error _ => .error .fatal

/-- nom `take_while1`: longest nonempty prefix of accepted characters. -/
def take_while1 (pred : Char → Bool) (input : List Char) :
    PResult (List Char) :=
  match input.takeWhile pred with
  | [] => .error .recoverable
  | taken => .ok (input.dropWhile pred, taken)

/-- nom `many0`, with explicit fuel (structural recursion so that the
parsers evaluate by reduction; `input.length + 1` fuel always
suffices, because every continuing iteration consumes input): stop on
a recoverable failure, propagate a fatal failure, and — like nom —
fail if the inner rule succeeds without consuming input. -/
def many0_fuel (p : List Char → PResult α) :
    Nat → List Char → PResult (List α)
  | 0, _ => .error .recoverable
  | fuel + 1, input =>
    match p input with
    | .error .fatal => .error .fatal
    | .error .recoverable => .ok (input, [])
    | .ok (rest, a) =>
      if rest.length == input.length then .error .recoverable
      else
        match many0_fuel p fuel rest with
        | .ok (rest2, tail_vals) => .ok (rest2, a :: tail_vals)
        | .error e => .error e

/-- nom `many0`. -/
def many0 (p : List Char → PResult α) (input : List Char) :
    PResult (List α) :=
  many0_fuel p (input.length + 1) input

/-- `parse_parenthesis_enclosed` (src/parser/utils.rs lines 94-108):
`delimited(char('('), preceded(multispace0, inner),
cut(preceded(multispace0, char(')'))))`.  A missing closing
parenthesis after the inner rule succeeded is a `cut`: fatal. -/
def parse_parenthesis_enclosed (inner : List Char → PResult α)
    (input : List Char) : PResult α :=
  match pchar '(' input with
  | .error e => .error e
  | .ok (rest, _) =>
    match preceded multispace0 inner rest with
    | .error e => .error e
    | .ok (rest2, value) =>
      match pcut (preceded multispace0 (pchar ')')) rest2 with
      | .error e => .error e
      | .ok (rest3, _) => .ok (rest3, value)

/-- `is_acceptable_identifier_character` (src/parser/utils.rs lines
110-137): ASCII alphanumeric, or one of the punctuation characters of
the `matches!` arm.  The source list contains, between `'&'` and
`'*'`, a non-ASCII character: U+00B4 ACUTE ACCENT (the file stores it
double-UTF-8-encoded; it is written `Char.ofNat 180` here).  The
backtick U+0060 is written `Char.ofNat 96`. -/
def is_acceptable_identifier_character (ch : Char) : Bool :=
  ch.isAlphanum ||
    (ch == '!' || ch == '#' || ch == '$' || ch == '%' || ch == '&' ||
     ch == Char.ofNat 180 ||
     ch == '*' || ch == '+' || ch == '-' || ch == '.' || ch == '/' ||
     ch == ':' || ch == '<' || ch == '=' || ch == '>' || ch == '?' ||
     ch == '@' || ch == '\\' || ch == '^' || ch == '_' ||
     ch == Char.ofNat 96 ||
     ch == '|' || ch == '~')

/-- The identifier character set the specification claims: ASCII
alphanumerics plus the fixed punctuation list
`! # $ % & * + - . / : < = > ? @ \ ^ _ backtick | ~` and nothing else.
This definition follows the specification text, for comparison with
`is_acceptable_identifier_character` above. -/
def spec_identifier_character (ch : Char) : Bool :=
  ch.isAlphanum ||
    (ch == '!' || ch == '#' || ch == '$' || ch == '%' || ch == '&' ||
     ch == '*' || ch == '+' || ch == '-' || ch == '.' || ch == '/' ||
     ch == ':' || ch == '<' || ch == '=' || ch == '>' || ch == '?' ||
     ch == '@' || ch == '\\' || ch == '^' || ch == '_' ||
     ch == Char.ofNat 96 ||
     ch == '|' || ch == '~')

/-- `parse_identifier` (src/parser/utils.rs lines 36-46): a `$` sigil
followed by one or more acceptable identifier characters
(`take_while1`).  `SmallString::new` is the identity in this model. -/
def parse_identifier (input : List Char) : PResult SmallString :=
  match pchar '$' input with
  | .error e => .error e
  | .ok (rest, _) => take_while1 is_acceptable_identifier_character rest

/-- `parse_numerical_type` (src/parser/utils.rs lines 61-70). -/
def parse_numerical_type (input : List Char) : PResult NumericalType :=
  palt4 (pvalue NumericalType.Int32 (ptag "i32"))
    (pvalue NumericalType.Int64 (ptag "i64"))
    (pvalue NumericalType.Float32 (ptag "f32"))
    (pvalue NumericalType.Float64 (ptag "f64")) input

/-- `parse_type` (src/parser/utils.rs lines 51-56). -/
def parse_type (input : List Char) : PResult AstType :=
  pmap parse_numerical_type AstType.Numerical input

/-- Digit run to number. -/
def digits_to_nat (ds : List Char) : Nat :=
  ds.foldl (fun acc c => acc * 10 + (c.toNat - 48)) 0

/-- nom's signed integer parsers (`character::complete::i64` and
`i32`): an optional sign, then one or more ASCII digits, accumulated
with overflow checking.  The per-digit overflow check accepts and
rejects exactly the digit strings whose value fits the target range,
so it is modelled as a range check on the final value. -/
def parse_int_in (lo hi : Int) (input : List Char) : PResult Int :=
  let signed : Bool × List Char :=
    match input with
    | '-' :: r => (true, r)
    | '+' :: r => (false, r)
    | r => (false, r)
  match signed.2.takeWhile Char.isDigit with
  | [] => .error .recoverable
  | ds =>
    let n : Nat := digits_to_nat ds
    let v : Int := if signed.1 then -(n : Int) else (n : Int)
    if lo ≤ v ∧ v ≤ hi then .ok (signed.2.dropWhile Char.isDigit, v)
    else .error .recoverable

/-- nom `character::complete::i64`. -/
def parse_i64 (input : List Char) : PResult Int :=
  parse_int_in (-(2 ^ 63)) (2 ^ 63 - 1) input

/-- nom `character::complete::i32`. -/
def parse_i32 (input : List Char) : PResult Int :=
  parse_int_in (-(2 ^ 31)) (2 ^ 31 - 1) input

/-- `parse_index` (src/parser/utils.rs lines 84-91): an identifier, or
a signed 64-bit numerical index. -/
def parse_index (input : List Char) : PResult Index :=
  palt2 (pmap parse_identifier Index.Identifier)
    (pmap parse_i64 Index.Numerical) input

/-- Helper for nom `escaped(none_of("\\\""), '\\', tag("\""))`: consume
a run of characters other than backslash and double quote, allowing
the escape pair backslash-quote; returns the consumed characters and
the rest.  Structurally fueled (`input.length + 1` suffices). -/
def escaped_chars : Nat → List Char → List Char × List Char
  | 0, input => ([], input)
  | _fuel + 1, [] => ([], [])
  | fuel + 1, c :: rest =>
    if c == '\\' then
      match rest with
      | d :: rest2 =>
        if d == '"' then
          let taken_rest := escaped_chars fuel rest2
          (c :: d :: taken_rest.1, taken_rest.2)
        else ([], c :: rest)
      | [] => ([], [c])
    else if c == '"' then ([], c :: rest)
    else
      let taken_rest := escaped_chars fuel rest
      (c :: taken_rest.1, taken_rest.2)

/-- `parse_string` (src/parser/utils.rs lines 17-22): a double-quoted
string whose body is an escaped run or empty
(`alt((escaped(...), tag(""))`).  The empty alternative makes a
zero-length body acceptable, so the body is simply the maximal escaped
run here. -/
def parse_string (input : List Char) : PResult (List Char) :=
  match pchar '"' input with
  | .error e => .error e
  | .ok (rest, _) =>
    let content_rest := escaped_chars (rest.length + 1) rest
    match pchar '"' content_rest.2 with
    | .error e => .error e
    | .ok (rest2, _) => .ok (rest2, content_rest.1)

/-- Round a nonnegative rational to the nearest integer, ties to even
(the IEEE-754 default rounding used by Rust float conversions). -/
def round_half_even (q : ℚ) : Int :=
  let fl := ⌊q⌋
  let fr := q - fl
  if fr < 1 / 2 then fl
  else if 1 / 2 < fr then fl + 1
  else if fl % 2 = 0 then fl else fl + 1

/-- Floor of the base-2 logarithm of a positive rational. -/
def rat_floor_log2 (q : ℚ) : Int :=
  let k := q.den.log2 + 1
  (Nat.log2 (⌊q * 2 ^ k⌋).toNat : Int) - k

/-- IEEE-754 binary64 bit pattern of the positive rational `q`, round
to nearest with ties to even; overflow gives the infinity pattern,
tiny values the subnormal patterns. -/
def f64_pos_bits (q : ℚ) : Nat :=
  let e : Int := rat_floor_log2 q
  if e ≤ -1023 then
    (round_half_even (q * 2 ^ (1074 : Nat))).toNat
  else
    let m := round_half_even (q * (2 : ℚ) ^ ((52 : Int) - e))
    let me : Int × Int := if m = 2 ^ 53 then (2 ^ 52, e + 1) else (m, e)
    if 1023 < me.2 then 0x7FF * 2 ^ 52
    else (me.2 + 1023).toNat * 2 ^ 52 + (me.1 - 2 ^ 52).toNat

/-- IEEE-754 binary64 bit pattern nearest to a rational. -/
def f64_bits_of_rat (q : ℚ) : Nat :=
  if q = 0 then 0
  else if q < 0 then 2 ^ 63 + f64_pos_bits (-q)
  else f64_pos_bits q

/-- IEEE-754 binary32 bit pattern of the positive rational `q`, round
to nearest with ties to even. -/
def f32_pos_bits (q : ℚ) : Nat :=
  let e : Int := rat_floor_log2 q
  if e ≤ -127 then
    (round_half_even (q * 2 ^ (149 : Nat))).toNat
  else
    let m := round_half_even (q * (2 : ℚ) ^ ((23 : Int) - e))
    let me : Int × Int := if m = 2 ^ 24 then (2 ^ 23, e + 1) else (m, e)
    if 127 < me.2 then 0xFF * 2 ^ 23
    else (me.2 + 127).toNat * 2 ^ 23 + (me.1 - 2 ^ 23).toNat

/-- IEEE-754 binary32 bit pattern nearest to a rational; this is the
rounding Rust's `as f32` narrowing performs on the (finite) value of
an `f64`. -/
def f32_bits_of_rat (q : ℚ) : Nat :=
  if q = 0 then 0
  else if q < 0 then 2 ^ 31 + f32_pos_bits (-q)
  else f32_pos_bits q

/-- nom `number::complete::double`: an optional sign, then either a
digit run with an optional `.`-fraction or a fraction alone, then an
optional exponent (`e`/`E`, optional sign, digit run), converted to
the nearest `f64` (returned as its bit pattern).  nom also accepts
`inf`/`nan` spellings, which no rule of this program's grammar
depends on and which are not modelled. -/
def parse_f64 (input : List Char) : PResult Nat :=
  let signed : Bool × List Char :=
    match input with
    | '-' :: r => (true, r)
    | '+' :: r => (false, r)
    | r => (false, r)
  let int_digits := signed.2.takeWhile Char.isDigit
  let r2 := signed.2.dropWhile Char.isDigit
  let body : Option (Nat × Nat × List Char) :=
    -- mantissa digits, fraction length, rest
    match int_digits, r2 with
    | [], '.' :: r3 =>
      match r3.takeWhile Char.isDigit with
      | [] => none
      | fs => some (digits_to_nat fs, fs.length, r3.dropWhile Char.isDigit)
    | [], _ => none
    | ds, '.' :: r3 =>
      let fs := r3.takeWhile Char.isDigit
      some (digits_to_nat (ds ++ fs), fs.length, r3.dropWhile Char.isDigit)
    | ds, r3 => some (digits_to_nat ds, 0, r3)
  match body with
  | none => .error .recoverable
  | some (mantissa, frac_len, r4) =>
    let expo : Int × List Char :=
      match r4 with
      | 'e' :: r5 | 'E' :: r5 =>
        let esigned : Bool × List Char :=
          match r5 with
          | '-' :: r6 => (true, r6)
          | '+' :: r6 => (false, r6)
          | r6 => (false, r6)
        match esigned.2.takeWhile Char.isDigit with
        | [] => (0, r4)
        | es =>
          let ev : Int := digits_to_nat es
          (if esigned.1 then -ev else ev, esigned.2.dropWhile Char.isDigit)
      | r5 => (0, r5)
    let q : ℚ := (mantissa : ℚ) * (10 : ℚ) ^ (expo.1 - frac_len)
    let bits :=
      if q = 0 then (if signed.1 then 2 ^ 63 else 0)
      else f64_bits_of_rat (if signed.1 then -q else q)
    .ok (expo.2, bits)

/-- `parse_const` (src/parser/instruction.rs lines 94-130): a
numerical type tag, `.const`, then a literal parsed according to the
type; `f32.const` literals are parsed as `f64` and then narrowed
(the source notes this cast as a hack). -/
def parse_const (input : List Char) : PResult NumericalValue :=
  match parse_numerical_type input with
  | .error e => .error e
  | .ok (rest, numerical_type) =>
    match ptag ".const" rest with
    | .error e => .error e
    | .ok (rest1, _) =>
      match numerical_type with
      | .Int32 =>
        match preceded multispace0 parse_i32 rest1 with
        | .error e => .error e
        | .ok (rest2, int32) => .ok (rest2, NumericalValue.Int32 int32)
      | .Int64 =>
        match preceded multispace0 parse_i64 rest1 with
        | .error e => .error e
        | .ok (rest2, int64) => .ok (rest2, NumericalValue.Int64 int64)
      | .Float32 =>
        match preceded multispace0 parse_f64 rest1 with
        | .error e => .error e
        | .ok (rest2, float64) =>
          .ok (rest2,
            NumericalValue.Float32 (f32_bits_of_rat (f64_to_rat float64)))
      | .Float64 =>
        match preceded multispace0 parse_f64 rest1 with
        | .error e => .error e
        | .ok (rest2, float64) => .ok (rest2, NumericalValue.Float64 float64)

/-- `parse_call` (src/parser/instruction.rs lines 147-154): the `call`
keyword, whitespace, then an index. -/
def parse_call (input : List Char) : PResult Index :=
  match ptag "call" input with
  | .error e => .error e
  | .ok (rest, _) => preceded multispace0 parse_index rest

/-- `parse_variable_instruction` (src/parser/instruction.rs lines
173-205): a `global`/`local` scope tag, then `.set`/`.get` — plus
`.tee` for `local` only, ensuring `global.tee` never parses — then
whitespace and an index.  The source snapshot writes the result with
struct-variant syntax; it denotes the `VariableOperation` payload. -/
def parse_variable_instruction (input : List Char) : PResult Opcode :=
  match palt2 (pvalue ScopeKind.Global (ptag "global"))
      (pvalue ScopeKind.Local (ptag "local")) input with
  | .error e => .error e
  | .ok (rest, scope) =>
    let step2 : PResult VariableInstruction :=
      match scope with
      | .Global =>
        palt2 (pvalue VariableInstruction.Set (ptag ".set"))
          (pvalue VariableInstruction.Get (ptag ".get")) rest
      | .Local =>
        palt3 (pvalue VariableInstruction.Set (ptag ".set"))
          (pvalue VariableInstruction.Get (ptag ".get"))
          (pvalue VariableInstruction.Tee (ptag ".tee")) rest
    match step2 with
    | .error e => .error e
    | .ok (rest1, opcode) =>
      match preceded multispace0 parse_index rest1 with
      | .error e => .error e
      | .ok (rest2, index) =>
        .ok (rest2, Opcode.VariableInstruction ⟨scope, opcode, index⟩)

/-- `parse_unreachable` (src/parser/instruction.rs lines 208-212). -/
def parse_unreachable (input : List Char) : PResult Unreachable :=
  match ptag "unreachable" input with
  | .error e => .error e
  | .ok (rest, _) => .ok (rest, Unreachable.mk)

/-- `parse_opcode` (src/parser/instruction.rs lines 67-76). -/
def parse_opcode (input : List Char) : PResult Opcode :=
  palt4 parse_variable_instruction
    (pmap parse_const (fun value => Opcode.Constant ⟨value⟩))
    (pmap parse_unreachable Opcode.Unreachable)
    (pmap parse_call Opcode.Call) input

/-- The plain (unparenthesized) instruction form of
`parse_instruction`: an opcode with no arguments. -/
def parse_plain_instruction (input : List Char) : PResult Instruction :=
  match parse_opcode input with
  | .error e => .error e
  | .ok (rest, opcode) => .ok (rest, Instruction.mk opcode [])

/-- The parenthesized form of `parse_instruction`
(src/parser/instruction.rs lines 42-57): an opcode followed by zero or
more parenthesis-enclosed operands, each parsed with `parse_const` —
only constants, exactly as the source does (its own TODO notes that
this should be `parse_instruction`).  The parsed `NumericalValue`s
populate the instruction's argument list; they are wrapped as
zero-argument constant instructions, the `Instruction` form a constant
denotes. -/
def parse_instruction_with_arguments (input : List Char) :
    PResult Instruction :=
  match parse_opcode input with
  | .error e => .error e
  | .ok (rest, opcode) =>
    match many0 (preceded multispace0
        (parse_parenthesis_enclosed parse_const)) rest with
    | .error e => .error e
    | .ok (rest1, arguments) =>
      .ok (rest1, Instruction.mk opcode
        (arguments.map (fun value => Instruction.mk (Opcode.Constant ⟨value⟩) [])))

/-- `parse_instruction` (src/parser/instruction.rs lines 28-65). -/
def parse_instruction (input : List Char) : PResult Instruction :=
  palt2 parse_plain_instruction
    (parse_parenthesis_enclosed parse_instruction_with_arguments) input

/-- Inner rule of `parse_export` (src/parser/function.rs lines
113-125): the `export` keyword then a quoted string. -/
def parse_export_inner (input : List Char) : PResult SmallString :=
  match preceded multispace0 (ptag "export") input with
  | .error e => .error e
  | .ok (rest, _) => preceded multispace0 parse_string rest

/-- `parse_export` (src/parser/function.rs lines 113-125).  Does not
eat leading whitespace before the opening parenthesis. -/
def parse_export (input : List Char) : PResult SmallString :=
  parse_parenthesis_enclosed parse_export_inner input

/-- Inner rule of `parse_parameter` (src/parser/function.rs lines
149-167): `param`, an optional identifier, then a type. -/
def parse_parameter_inner (input : List Char) : PResult Parameter :=
  match preceded multispace0 (ptag "param") input with
  | .error e => .error e
  | .ok (rest, _) =>
    match popt (preceded multispace0 parse_identifier) rest with
    | .error e => .error e
    | .ok (rest1, identifier) =>
      match preceded multispace0 parse_type rest1 with
      | .error e => .error e
      | .ok (rest2, type_) => .ok (rest2, ⟨identifier, type_⟩)

/-- `parse_parameter` (src/parser/function.rs lines 149-167): eats
leading whitespace, then a parenthesis-enclosed parameter. -/
def parse_parameter (input : List Char) : PResult Parameter :=
  preceded multispace0 (parse_parenthesis_enclosed parse_parameter_inner) input

/-- Inner rule of `parse_local` (src/parser/function.rs lines
189-207). -/
def parse_local_inner (input : List Char) : PResult Local :=
  match preceded multispace0 (ptag "local") input with
  | .error e => .error e
  | .ok (rest, _) =>
    match popt (preceded multispace0 parse_identifier) rest with
    | .error e => .error e
    | .ok (rest1, identifier) =>
      match preceded multispace0 parse_type rest1 with
      | .error e => .error e
      | .ok (rest2, type_) => .ok (rest2, ⟨identifier, type_⟩)

/-- `parse_local` (src/parser/function.rs lines 189-207). -/
def parse_local (input : List Char) : PResult Local :=
  preceded multispace0 (parse_parenthesis_enclosed parse_local_inner) input

/-- Inner rule of `parse_function` (src/parser/function.rs lines
52-78): `func`, an optional identifier, then exports, parameters and
locals in order (each a `many0`). -/
def parse_function_inner (input : List Char) : PResult Function :=
  match preceded multispace0 (ptag "func") input with
  | .error e => .error e
  | .ok (rest, _) =>
    match preceded multispace0 (popt parse_identifier) rest with
    | .error e => .error e
    | .ok (rest1, identifier) =>
      match many0 parse_export rest1 with
      | .error e => .error e
      | .ok (rest2, exports) =>
        match many0 parse_parameter rest2 with
        | .error e => .error e
        | .ok (rest3, parameters) =>
          match many0 parse_local rest3 with
          | .error e => .error e
          | .ok (rest4, local_variables) =>
            .ok (rest4, ⟨identifier, exports, parameters, local_variables⟩)

/-- `parse_function` (src/parser/function.rs lines 52-78). -/
def parse_function (input : List Char) : PResult Function :=
  parse_parenthesis_enclosed parse_function_inner input

/-! ## Helper lemmas about the parser combinators -/

/-- nom `value` only ever outputs its constant. -/
theorem pvalue_ok {α β : Type} (v : α) (p : List Char → PResult β)
    (input rest : List Char) (a : α)
    (h : pvalue v p input = .ok (rest, a)) : a = v := by
  unfold pvalue at h
  split at h
  · simp only [Except.ok.injEq, Prod.mk.injEq] at h
    exact h.2.symm
  · simp at h

/-- A success of `palt2` is a success of one of its branches. -/
theorem palt2_ok {α : Type} (p q : List Char → PResult α)
    (input : List Char) (x : List Char × α)
    (h : palt2 p q input = .ok x) :
    p input = .ok x ∨ q input = .ok x := by
  unfold palt2 at h
  split at h
  · exact Or.inl (by rw [‹p input = _›, h])
  · simp at h
  · exact Or.inr h

/-- `parse_variable_instruction` never outputs a global-scope tee: in
the `Global` branch the instruction alternation offers only `.set` and
`.get`. -/
theorem parse_variable_instruction_no_global_tee
    (input rest : List Char) (vo : VariableOperation)
    (h : parse_variable_instruction input =
      .ok (rest, Opcode.VariableInstruction vo)) :
    ¬(vo.scope = ScopeKind.Global ∧
      vo.instruction = VariableInstruction.Tee) := by
  unfold parse_variable_instruction at h
  split at h
  · simp at h
  · rename_i x rest0 scope heq
    cases scope with
    | Global =>
      simp only at h
      split at h
      · simp at h
      · rename_i x2 rest1 opcode heq2
        split at h
        · simp at h
        · rename_i x3 rest2 index heq3
          simp only [Except.ok.injEq, Prod.mk.injEq,
            Opcode.VariableInstruction.injEq] at h
          rcases palt2_ok _ _ _ _ heq2 with h2 | h2
          · have hval := pvalue_ok _ _ _ _ _ h2
            rintro ⟨hsc, hin⟩
            rw [← h.2] at hin
            simp [hval] at hin
          · have hval := pvalue_ok _ _ _ _ _ h2
            rintro ⟨hsc, hin⟩
            rw [← h.2] at hin
            simp [hval] at hin
    | Local =>
      simp only at h
      split at h
      · simp at h
      · rename_i x2 rest1 opcode heq2
        split at h
        · simp at h
        · rename_i x3 rest2 index heq3
          simp only [Except.ok.injEq, Prod.mk.injEq,
            Opcode.VariableInstruction.injEq] at h
          rintro ⟨hsc, hin⟩
          rw [← h.2] at hsc
          simp at hsc

/-- The accepted identifier character set is the specification's set
extended by U+00B4. -/
theorem ident_char_iff (c : Char) :
    is_acceptable_identifier_character c =
      (spec_identifier_character c || c == Char.ofNat 180) := by
  by_cases hc : c = Char.ofNat 180
  · subst hc; decide
  · have h180 : (c == Char.ofNat 180) = false := beq_eq_false_iff_ne.mpr hc
    simp only [is_acceptable_identifier_character, spec_identifier_character,
      h180, Bool.false_or, Bool.or_false]

/-- A successfully parsed identifier is nonempty and consists only of
accepted characters. -/
theorem parse_identifier_ok (input rest : List Char) (name : SmallString)
    (h : parse_identifier input = .ok (rest, name)) :
    name ≠ [] ∧ ∀ c ∈ name, is_acceptable_identifier_character c = true := by
  unfold parse_identifier at h
  split at h
  · simp at h
  · unfold take_while1 at h
    split at h
    · simp at h
    · rename_i hne
      simp only [Except.ok.injEq, Prod.mk.injEq] at h
      constructor
      · intro hn
        exact hne (h.2.trans hn)
      · intro ch hch
        rw [← h.2] at hch
        exact List.mem_takeWhile_imp hch

/-! ## The claims -/

/-- Claim C1, counterexample: the pair (Int32, GreaterThan) belongs to
the claim's enumerated set, yet `ComparisonOperation::to_opcode` does
not return a byte for it — the source arm is `todo!()`, which
aborts. -/
theorem comparison_gt_aborts :
    ComparisonOperation.to_opcode
      ⟨NumericalType.Int32, ComparisonInstruction.GreaterThan⟩ = none := rfl

/-- Claim C1 (amended): comparison opcode resolution is a pure
function returning a byte exactly on the Equal and NotEqual pairs
(eight pairs, bytes 0x45/0x47, 0x51/0x52, 0x5b/0x5c, 0x61/0x62 for
Int32/Int64/Float32/Float64); every GreaterThan, LessThan,
GreaterOrEqual or LessOrEqual pair aborts (`todo!()` in the source),
for every numerical type. -/
theorem comparison_opcode_partial :
    (∀ op : ComparisonOperation,
      op.to_opcode.isSome = true ↔
        (op.instr = ComparisonInstruction.Equal ∨
          op.instr = ComparisonInstruction.NotEqual)) ∧
    ComparisonOperation.to_opcode ⟨.Int32, .Equal⟩ = some 0x45 ∧
    ComparisonOperation.to_opcode ⟨.Int32, .NotEqual⟩ = some 0x47 ∧
    ComparisonOperation.to_opcode ⟨.Int64, .Equal⟩ = some 0x51 ∧
    ComparisonOperation.to_opcode ⟨.Int64, .NotEqual⟩ = some 0x52 ∧
    ComparisonOperation.to_opcode ⟨.Float32, .Equal⟩ = some 0x5b ∧
    ComparisonOperation.to_opcode ⟨.Float32, .NotEqual⟩ = some 0x5c ∧
    ComparisonOperation.to_opcode ⟨.Float64, .Equal⟩ = some 0x61 ∧
    ComparisonOperation.to_opcode ⟨.Float64, .NotEqual⟩ = some 0x62 := by
  refine ⟨?_, rfl, rfl, rfl, rfl, rfl, rfl, rfl, rfl⟩
  intro op
  obtain ⟨t, i⟩ := op
  cases t <;> cases i <;> simp [ComparisonOperation.to_opcode]

/-- Claim C2: the folded instruction `(call 5 (unreachable))` is
well-formed under the grammar the specification states (operands may
be any instruction), yet `parse_instruction` rejects it — operand
parsing only accepts parenthesized constants, so after `call 5` the
non-constant operand is not consumed and the missing closing
parenthesis is a fatal (`cut`) failure.  A constant operand parses
fine, in line with the source's own doc-test. -/
theorem folded_operands_only_constants :
    parse_instruction "(call 5 (unreachable))".toList = .error .fatal ∧
    parse_instruction "(call 5 (i32.const 5))".toList =
      .ok ([], Instruction.mk (Opcode.Call (Index.Numerical 5))
        [Instruction.mk (Opcode.Constant ⟨NumericalValue.Int32 5⟩) []]) :=
  ⟨rfl, rfl⟩

/-- Claim C3, counterexample: U+00B4 (ACUTE ACCENT) is accepted by
`is_acceptable_identifier_character` and by `parse_identifier`, but it
is neither an ASCII alphanumeric nor in the claim's punctuation set. -/
theorem identifier_accepts_acute_accent :
    is_acceptable_identifier_character (Char.ofNat 180) = true ∧
    spec_identifier_character (Char.ofNat 180) = false ∧
    (Char.ofNat 180).isAlphanum = false ∧
    parse_identifier ('$' :: [Char.ofNat 180]) =
      .ok ([], [Char.ofNat 180]) := by
  refine ⟨by decide, by decide, by decide, rfl⟩

/-- Claim C3 (amended): the set of characters accepted after the `$`
sigil is exactly the claimed set — ASCII alphanumerics plus the fixed
punctuation list — extended by the single non-ASCII character U+00B4
(ACUTE ACCENT); and a successfully parsed identifier is non-empty and
made only of accepted characters. -/
theorem identifier_charset :
    (∀ c, is_acceptable_identifier_character c =
      (spec_identifier_character c || c == Char.ofNat 180)) ∧
    (∀ input rest name, parse_identifier input = .ok (rest, name) →
      name ≠ [] ∧ ∀ c ∈ name, is_acceptable_identifier_character c = true) :=
  ⟨ident_char_iff, parse_identifier_ok⟩

/-- Claim C3 witness: instantiating the amended theorem at the
concrete input `$ab`. -/
theorem identifier_charset_witness :
    "ab".toList ≠ [] ∧
    ∀ c ∈ "ab".toList, is_acceptable_identifier_character c = true :=
  identifier_charset.2 "$ab".toList [] "ab".toList rfl

/-- Claim C4: for every Program, `emit_program` writes exactly eight
bytes — the magic constant 0x00 0x61 0x73 0x6D followed by the four
ASCII bytes of "1000" — and nothing else. -/
theorem emit_program_bytes (p : Program) :
    emit_program p = [0x00, 0x61, 0x73, 0x6D, 0x31, 0x30, 0x30, 0x30] ∧
    (emit_program p).length = 8 := ⟨rfl, rfl⟩

/-- Claim C5: the constant emission vectors.  `0x40A00000` is the
IEEE-754 binary32 pattern whose value is 5 (the literal `5.0f32`), and
`0x4039800000000000` the binary64 pattern whose value is 51/2 (the
literal `25.50f64`), as the accompanying `f32_to_rat`/`f64_to_rat`
conjuncts certify. -/
theorem constant_emission_vectors :
    Constant.emit_element ⟨NumericalValue.Int32 5⟩ = [0x41, 0x05] ∧
    Constant.emit_element ⟨NumericalValue.Float32 0x40A00000⟩ =
      [0x43, 0x00, 0x00, 0xA0, 0x40] ∧
    f32_to_rat 0x40A00000 = 5 ∧
    Constant.emit_element ⟨NumericalValue.Float64 0x4039800000000000⟩ =
      [0x44, 0x00, 0x00, 0x00, 0x00, 0x00, 0x80, 0x39, 0x40] ∧
    f64_to_rat 0x4039800000000000 = 51 / 2 := by
  refine ⟨?_, rfl, by norm_num [f32_to_rat], rfl, by norm_num [f64_to_rat]⟩
  simp [Constant.emit_element, NumericalValue.emit_element,
    NumericalValue.to_opcode, i32_as_i64, sleb_encode]

/-- Claim C6: the variable-length integer literal vectors. -/
theorem leb128_literal_vectors :
    sleb_encode 128 = [0x80, 0x01] ∧
    sleb_encode (-85092) = [0x9C, 0xE7, 0x7A] ∧
    sleb_encode (-(2 ^ 63)) =
      [0x80, 0x80, 0x80, 0x80, 0x80, 0x80, 0x80, 0x80, 0x80, 0x7F] ∧
    uleb_encode 0 = [0x00] ∧
    uleb_encode (2 ^ 64 - 1) =
      [0xFF, 0xFF, 0xFF, 0xFF, 0xFF, 0xFF, 0xFF, 0xFF, 0xFF, 0x01] := by
  refine ⟨by simp [sleb_encode], by simp [sleb_encode],
    by simp [sleb_encode], rfl, by simp [uleb_encode, uleb_loop]⟩

/-- Claim C7: for every `i64` value, decoding the signed encoding
reproduces the value, the encoding is structurally canonical (every
non-final byte has the high bit set, the final byte does not) and
minimal, and it is the unique such sequence; the unsigned round trip
holds for every `u64` value. -/
theorem leb128_round_trip :
    (∀ v : Int, -(2 ^ 63) ≤ v → v < 2 ^ 63 →
      sleb_decode (sleb_encode v) = v ∧
      canonical_bytes (sleb_encode v) = true ∧
      sleb_minimal (sleb_encode v) = true ∧
      (∀ bs, canonical_bytes bs = true → sleb_minimal bs = true →
        sleb_decode bs = v → bs = sleb_encode v)) ∧
    (∀ v : Nat, v < 2 ^ 64 → uleb_decode (uleb_encode v) = v) :=
  ⟨fun v _ _ => ⟨sleb_decode_encode v, sleb_encode_canonical v,
      sleb_encode_minimal v, fun bs hc hm hd => sleb_unique bs v hc hm hd⟩,
    fun v _ => uleb_decode_encode v⟩

/-- Claim C7 witness: the round trips instantiated at concrete
values. -/
theorem leb128_round_trip_witness :
    sleb_decode (sleb_encode 128) = 128 ∧
    uleb_decode (uleb_encode 7) = 7 :=
  ⟨(leb128_round_trip.1 128 (by norm_num) (by norm_num)).1,
    leb128_round_trip.2 7 (by norm_num)⟩

/-- Claim C8: no input string parses to a global-scope tee, and opcode
resolution of a hand-built global-scope tee aborts. -/
theorem no_global_tee :
    (∀ input rest vo,
      parse_variable_instruction input =
        .ok (rest, Opcode.VariableInstruction vo) →
      ¬(vo.scope = ScopeKind.Global ∧
        vo.instruction = VariableInstruction.Tee)) ∧
    (∀ index, VariableOperation.to_opcode
      ⟨ScopeKind.Global, VariableInstruction.Tee, index⟩ = none) :=
  ⟨parse_variable_instruction_no_global_tee, fun _ => rfl⟩

/-- Claim C8 witness: the parser theorem instantiated at the concrete
successful parse of `global.set 0`. -/
theorem no_global_tee_witness :
    ¬((VariableOperation.mk ScopeKind.Global VariableInstruction.Set
        (Index.Numerical 0)).scope = ScopeKind.Global ∧
      (VariableOperation.mk ScopeKind.Global VariableInstruction.Set
        (Index.Numerical 0)).instruction = VariableInstruction.Tee) :=
  no_global_tee.1 "global.set 0".toList []
    ⟨ScopeKind.Global, VariableInstruction.Set, Index.Numerical 0⟩ rfl

/-- Claim C9: the specification's function example parses with no
remaining input into the expected identifier, parameters and locals,
in order. -/
theorem parse_function_add_example :
    parse_function
      "(func $add (param $number f64) (param i64) (local $l1 i32) (local f32))".toList =
      .ok ([], ⟨some "add".toList, [],
        [⟨some "number".toList, AstType.Numerical NumericalType.Float64⟩,
          ⟨none, AstType.Numerical NumericalType.Int64⟩],
        [⟨some "l1".toList, AstType.Numerical NumericalType.Int32⟩,
          ⟨none, AstType.Numerical NumericalType.Float32⟩]⟩) := rfl

/-- Claim C10: an `i32` constant is emitted through the 64-bit signed
LEB128 encoding of its sign-extended (`as i64`, value-preserving)
payload — byte-for-byte the same output as the corresponding `i64`
constant. -/
theorem int32_via_int64_codec (v : Int)
    (h1 : -(2 ^ 31) ≤ v) (h2 : v < 2 ^ 31) :
    NumericalValue.emit_element (NumericalValue.Int32 v) =
      sleb_encode (i32_as_i64 v) ∧
    NumericalValue.emit_element (NumericalValue.Int32 v) =
      NumericalValue.emit_element (NumericalValue.Int64 (i32_as_i64 v)) :=
  ⟨rfl, rfl⟩

/-- Claim C10 witness: instantiated at `v = 5`. -/
theorem int32_via_int64_codec_witness :
    NumericalValue.emit_element (NumericalValue.Int32 5) =
      NumericalValue.emit_element (NumericalValue.Int64 (i32_as_i64 5)) :=
  (int32_via_int64_codec 5 (by norm_num) (by norm_num)).2
